import Mathlib

/-!
Verification of the supabase-tailer log-shipping pipeline.

Shallow embedding of the program in src/unnamed/part_001 (the current
supabase-tailer entry point): the split2 line splitter, the tail reader
(TailStreamManager.addTailStream), the credential extraction
(getCredentialsFromToken plus main's authId lookup), the CLI option surface,
the per-spec source setup loop in main, and the debounced batch delivery
coordinator built in makeProcessLogLine.

Streams are modelled as the lists of bytes (Char) or chunks they carry, the
single-threaded event loop as an explicit trace of events, and the external
sink as a function from attempt index to success/failure.
-/

/- ===================== line splitting (split2) ===================== -/

/-- All newline-separated segments of a byte sequence, including empty ones
and the trailing segment after the last newline (split2 keeps its carry
here until flush). `fullSplit s` is always nonempty. -/
def fullSplit : List Char → List (List Char)
  | [] => [[]]
  | c :: rest =>
    let segs := fullSplit rest
    if c = '\n' then [] :: segs
    else (c :: segs.headI) :: segs.tail

/-- The lines emitted by a split2 transform over the whole byte sequence:
every segment, except that the trailing carry is emitted only when nonempty
(split2's flush pushes the last buffered segment only if truthy). -/
def split2Lines (s : List Char) : List (List Char) :=
  let segs := fullSplit s
  if segs.getLast? = some [] then segs.dropLast else segs

/-- One write of `line + '\n'` into a PassThrough stream
(src/unnamed/part_001 line 135). -/
def lineChunk (l : List Char) : List Char := l ++ ['\n']

/- ===================== tail reader ===================== -/

/-- The starting byte offset of a tail stream: the file's size at discovery
time (`initialStats.size`, src/unnamed/part_001 lines 119-120). -/
def tailStartOffset (initialContent : List Char) : Nat := initialContent.length

/-- The bytes delivered by `createReadStream(p, { start: initialSize })`
(src/unnamed/part_001 lines 123-125): the file's full eventual content,
starting at the offset captured at discovery time. -/
def tailEmit (initialContent appended : List Char) : List Char :=
  (initialContent ++ appended).drop (tailStartOffset initialContent)

/-- The nonempty lines the per-file data handler forwards: split2 output with
empty lines dropped by the `if (line)` guard (src/unnamed/part_001
lines 132-137). -/
def fileStdoutLineChars (bytes : List Char) : List (List Char) :=
  (split2Lines bytes).filter (fun l => !l.isEmpty)

/-- The pair of streams returned by TailStreamManager.addTailStream. -/
structure TailStreams where
  stdoutLines : List String
  stderrLines : List String

/-- Model of TailStreamManager.addTailStream (src/unnamed/part_001 lines
108-143): the tail stream is opened at the file's current size, piped through
split2, and every nonempty line is written to `stdoutStream`; `stderrStream`
is a fresh PassThrough that no code ever writes to, so the list of lines it
carries is empty. -/
def addTailStream (initialContent appended : List Char) : TailStreams :=
  { stdoutLines := (fileStdoutLineChars (tailEmit initialContent appended)).map
      (fun l => String.mk l),
    stderrLines := [] }

/- ===================== records and delivery coordinator ===================== -/

/-- The startup values main extracts before wiring the pipeline: the token's
user id, the auth id read from the token payload, and the --databaseIdKey
field name. -/
structure Config where
  userId : String
  authId : String
  databaseIdKey : String
deriving DecidableEq

/-- One record pushed onto lineQueue (src/unnamed/part_001 lines 277-282):
`{ user_id: userId, [databaseIdKey]: authId, content: line, stream }`.
The computed field name is kept alongside its value. -/
structure LogEntry where
  user_id : String
  dbIdKey : String
  dbIdVal : String
  content : String
  stream : String
deriving DecidableEq

/-- The entry literal built by makeProcessLogLine for one line. -/
def mkEntry (cfg : Config) (stream content : String) : LogEntry :=
  { user_id := cfg.userId,
    dbIdKey := cfg.databaseIdKey,
    dbIdVal := cfg.authId,
    content := content,
    stream := stream }

/-- Events of the single-threaded pipeline around lineQueue:
a line arriving on one of the two global streams, the scheduled debouncer
turn starting to run, and the in-flight delivery completing. The `src`
component records which source file produced the line (provenance only: the
record itself does not store it). -/
inductive PipeEv where
  | line (src tag content : String)
  | run
  | complete

/-- Shared state of the delivery coordinator: the lineQueue, whether a
debouncer turn is scheduled to run, and how many deliveries are in flight. -/
structure CoordState where
  lineQueue : List LogEntry
  scheduled : Bool
  inFlight : Nat
deriving DecidableEq

def initState : CoordState := { lineQueue := [], scheduled := false, inFlight := 0 }

/-- `const numRetries = 10` (src/unnamed/part_001 line 292). -/
def numRetries : Nat := 10

/-- `const retryDelayMs = 1000` (src/unnamed/part_001 line 293). -/
def retryDelayMs : Nat := 1000

/-- One step of the coordinator.  A nonempty line is appended to lineQueue and
a turn is requested (src/unnamed/part_001 lines 276-285); an empty line does
nothing.  Modelled from the spec: the Debouncer of the external
debouncer-async package (not in the repository source) gives single-flight
turn semantics — a requested turn runs only when no delivery is in flight,
and requests arriving while one is scheduled or running are absorbed into
the single pending turn.  When the turn runs it atomically snapshots and
clears the queue and starts a delivery only when the snapshot is nonempty
(lines 286-291).  Completion of the delivery leaves the queue untouched:
nothing is ever re-enqueued. -/
def step (cfg : Config) (s : CoordState) : PipeEv → CoordState × List (List LogEntry)
  | PipeEv.line _src tag content =>
    if content = "" then (s, [])
    else
      ({ s with
          lineQueue := s.lineQueue ++ [mkEntry cfg tag content]
          scheduled := true }, [])
  | PipeEv.run =>
    if s.scheduled && s.inFlight == 0 then
      if s.lineQueue.isEmpty then ({ s with scheduled := false }, [])
      else ({ lineQueue := [], scheduled := false, inFlight := 1 }, [s.lineQueue])
    else (s, [])
  | PipeEv.complete =>
    if s.inFlight == 0 then (s, [])
    else ({ s with inFlight := s.inFlight - 1 }, [])

/-- Run the coordinator over a trace of events, collecting every batch handed
to the sink, in order. -/
def runTrace (cfg : Config) : CoordState → List PipeEv → CoordState × List (List LogEntry)
  | s, [] => (s, [])
  | s, e :: evs =>
    let r1 := step cfg s e
    let r2 := runTrace cfg r1.1 evs
    (r2.1, r1.2 ++ r2.2)

/-- The record a single event enqueues, if any. -/
def eventRecord (cfg : Config) : PipeEv → Option LogEntry
  | PipeEv.line _src tag content =>
    if content = "" then none else some (mkEntry cfg tag content)
  | PipeEv.run => none
  | PipeEv.complete => none

/-- All records enqueued along a trace, in arrival order. -/
def arrivals (cfg : Config) (evs : List PipeEv) : List LogEntry :=
  evs.filterMap (eventRecord cfg)

/-- Observable behaviour of one flush body: the argument of every insert call
in order, the backoff waits performed (durations in ms), and whether the body
returned normally (`true`) or threw the delivery-exhausted error (`false`). -/
structure DeliveryTrace where
  inserts : List (List LogEntry)
  waitsMs : List Nat
  delivered : Bool
deriving DecidableEq

/-- The retry loop of src/unnamed/part_001 lines 294-305, attempt index `i`
with `fuel` iterations left: insert the snapshot; on success return; on a
sink error wait retryDelayMs and continue.  Running out of fuel models
reaching line 306 and throwing. `sinkOk i` tells whether attempt `i`
succeeds. -/
def attemptLoop (sinkOk : Nat → Bool) (entries : List LogEntry) : Nat → Nat → DeliveryTrace
  | _i, 0 => { inserts := [], waitsMs := [], delivered := false }
  | i, fuel + 1 =>
    if sinkOk i then { inserts := [entries], waitsMs := [], delivered := true }
    else
      let rest := attemptLoop sinkOk entries (i + 1) fuel
      { inserts := entries :: rest.inserts,
        waitsMs := retryDelayMs :: rest.waitsMs,
        delivered := rest.delivered }

/-- The whole flush body (src/unnamed/part_001 lines 285-307): snapshot
`entries`; when the snapshot is nonempty run the retry loop, otherwise return
without any insert. -/
def flushBody (sinkOk : Nat → Bool) (entries : List LogEntry) : DeliveryTrace :=
  if entries.isEmpty then { inserts := [], waitsMs := [], delivered := true }
  else attemptLoop sinkOk entries 0 numRetries

/-- Whether an event can reach the coordinator through main's wiring
(src/unnamed/part_001 lines 229-234 and 311-314): line events arrive either
on the stdout path, or on the stderr path carrying a line some per-file
stderrStream emitted — and addTailStream's stderrStream emits nothing. -/
def fromWiring (initOf appOf : String → List Char) : PipeEv → Bool
  | PipeEv.line src tag content =>
    (tag == "stdout")
      || ((addTailStream (initOf src) (appOf src)).stderrLines.contains content)
  | PipeEv.run => true
  | PipeEv.complete => true

/- ===================== credentials ===================== -/

/-- A decoded token payload: a string-valued claim map.  A key bound to the
empty string models a present but falsy claim value. -/
abbrev Claims := List (String × String)

def lookupClaim (p : Claims) (k : String) : Option String := p.lookup k

/-- `out?.payload?.userId ?? out?.payload?.sub ?? null`
(src/unnamed/part_001 line 23): nullish coalescing, so a present empty
userId does not fall through to sub. -/
def extractUserId (payload : Option Claims) : Option String :=
  match payload with
  | none => none
  | some p =>
    match lookupClaim p "userId" with
    | some v => some v
    | none => lookupClaim p "sub"

/-- JavaScript truthiness of a possibly-missing string: missing and empty are
falsy. -/
def jsTruthy : Option String → Bool
  | none => false
  | some s => s != ""

structure Credentials where
  userId : String
  payload : Claims
  authId : String
deriving DecidableEq

/-- getCredentialsFromToken (src/unnamed/part_001 lines 17-38): throw on a
blank token; decode; throw when the extracted user id is missing or falsy;
otherwise return the user id and the payload.  `decode` abstracts
jwt.decode, returning the payload claim map when the token parses. -/
def getCredentialsFromToken (decode : String → Option Claims) (token : String) :
    Except String (String × Claims) :=
  if token = "" then Except.error "cannot get client for blank token"
  else
    match extractUserId (decode token) with
    | none => Except.error "could not get user id from token"
    | some uid =>
      if uid = "" then Except.error "could not get user id from token"
      else Except.ok (uid, (decode token).getD [])

/-- getCredentialsFromToken followed by main's auth id lookup
(src/unnamed/part_001 lines 182-186): `authId = payload[authIdKey]`, throwing
when `!authId`. -/
def resolveCredentials (decode : String → Option Claims) (token authIdKey : String) :
    Except String Credentials :=
  match getCredentialsFromToken decode token with
  | Except.error e => Except.error e
  | Except.ok (uid, payload) =>
    match lookupClaim payload authIdKey with
    | none => Except.error "Error: No auth id found in payload"
    | some aid =>
      if aid = "" then Except.error "Error: No auth id found in payload"
      else Except.ok { userId := uid, payload := payload, authId := aid }

/-- The successful value of a resolution, if any. -/
def okValue {α : Type} : Except String α → Option α
  | Except.ok a => some a
  | Except.error _ => none

/- ===================== CLI surface and source setup ===================== -/

/-- The option names main declares (src/unnamed/part_001 lines 150-158). -/
def recognizedOptions : List String := ["jwt", "tableName", "databaseIdKey", "authIdKey"]

/-- Split a character sequence at its first colon, when there is one. -/
def splitFirstColon : List Char → Option (List Char × List Char)
  | [] => none
  | c :: rest =>
    if c = ':' then some ([], rest)
    else
      match splitFirstColon rest with
      | none => none
      | some (pre, post) => some (c :: pre, post)

/-- The path part of `^(?:([^:]+):)?([\s\S]*)$` (src/unnamed/part_001
line 201): when the spec has a nonempty colon-free tag before its first
colon, the path is everything after that colon; otherwise the whole spec. -/
def stripFormatTag (spec : String) : String :=
  match splitFirstColon spec.data with
  | none => spec
  | some ([], _) => spec
  | some (_ :: _, post) => String.mk post

/-- What main's per-spec loop (src/unnamed/part_001 lines 196-250) does with
one source spec: for `-` it assigns process.stdin to the local `tailStream`,
which is never read again (no pipe into the global streams); for any other
spec it watches the resolved path and pipes the discovered file's tail
streams into the globals. -/
inductive SourceAction where
  | watchAndPipe (resolvedPath : String)
  | stdinAssignedUnused
deriving DecidableEq

def setupSource (resolve : String → String) (spec : String) : SourceAction :=
  if spec = "-" then SourceAction.stdinAssignedUnused
  else SourceAction.watchAndPipe (resolve (stripFormatTag spec))

/-- The sources whose bytes are piped into globalStdoutStream: only watched
paths; the `-` branch contributes nothing because its `tailStream` variable
is never used after the assignment on line 199. -/
def pipedSourcePaths (resolve : String → String) (specs : List String) : List String :=
  specs.filterMap (fun spec =>
    match setupSource resolve spec with
    | SourceAction.watchAndPipe p => some p
    | SourceAction.stdinAssignedUnused => none)

/- ===================== witness fixtures ===================== -/

def cfg0 : Config := { userId := "u1", authId := "auth1", databaseIdKey := "agent_id" }

def merged0 : List (String × List Char) := [("a", ['h']), ("b", ['y']), ("a", ['w'])]

def entries0 : List LogEntry := [mkEntry cfg0 "stdout" "hello"]

def evs0 : List PipeEv := [PipeEv.line "f" "stdout" "hi", PipeEv.run]

def decodeEx : String → Option Claims :=
  fun t => if t = "tok" then some [("sub", "u"), ("agent_id", "")] else none

/-- A sink that fails on attempts 0 and 1 and succeeds from attempt 2 on. -/
def sinkA0 : Nat → Bool := fun i => decide (2 ≤ i)

/-- A sink that fails on every attempt. -/
def sinkB0 : Nat → Bool := fun _ => false

/- ===================== lemmas: line splitting ===================== -/

lemma fullSplit_cons_newline (s : List Char) :
    fullSplit ('\n' :: s) = [] :: fullSplit s := by
  simp [fullSplit]

lemma fullSplit_noNewline_append (s : List Char) :
    ∀ l : List Char, '\n' ∉ l → fullSplit (l ++ '\n' :: s) = l :: fullSplit s := by
  intro l
  induction l with
  | nil => intro _; simp [fullSplit]
  | cons c l ih =>
    intro h
    have hc : ¬c = '\n' := fun hcc => h (by simp [hcc])
    have hl : '\n' ∉ l := fun hm => h (List.mem_cons_of_mem _ hm)
    simp only [List.cons_append, fullSplit, hc, if_false, List.append_eq]
    rw [ih hl]
    simp

lemma fullSplit_chunks (ls : List (List Char)) (h : ∀ l ∈ ls, '\n' ∉ l) :
    fullSplit ((ls.map lineChunk).flatten) = ls ++ [[]] := by
  induction ls with
  | nil => simp [fullSplit]
  | cons l ls ih =>
    have hl : '\n' ∉ l := h l (List.mem_cons_self l ls)
    have hrest : ∀ x ∈ ls, '\n' ∉ x := fun x hx => h x (List.mem_cons_of_mem _ hx)
    have : lineChunk l ++ (ls.map lineChunk).flatten
        = l ++ '\n' :: (ls.map lineChunk).flatten := by
      simp [lineChunk]
    simp only [List.map_cons, List.flatten_cons, this,
      fullSplit_noNewline_append _ l hl, ih hrest, List.cons_append]

lemma split2Lines_chunks (ls : List (List Char)) (h : ∀ l ∈ ls, '\n' ∉ l) :
    split2Lines ((ls.map lineChunk).flatten) = ls := by
  unfold split2Lines
  rw [fullSplit_chunks ls h]
  simp

/- ===================== lemmas: delivery coordinator ===================== -/

lemma arrivals_cons (cfg : Config) (e : PipeEv) (evs : List PipeEv) :
    arrivals cfg (e :: evs) = arrivals cfg [e] ++ arrivals cfg evs := by
  cases h : eventRecord cfg e <;>
    simp [arrivals, List.filterMap_cons, h]

lemma step_partition (cfg : Config) (s : CoordState) (e : PipeEv) :
    ((step cfg s e).2).flatten ++ (step cfg s e).1.lineQueue
      = s.lineQueue ++ arrivals cfg [e] := by
  cases e with
  | line src tag c =>
    by_cases hc : c = ""
    · simp [step, arrivals, eventRecord, hc]
    · simp [step, arrivals, eventRecord, hc]
  | run =>
    by_cases hg : (s.scheduled && s.inFlight == 0) = true
    · by_cases hq : s.lineQueue.isEmpty
      · simp [step, arrivals, eventRecord, hg, hq]
      · simp [step, arrivals, eventRecord, hg, hq]
    · simp [step, arrivals, eventRecord, hg]
  | complete =>
    by_cases h0 : (s.inFlight == 0) = true
    · simp [step, arrivals, eventRecord, h0]
    · simp [step, arrivals, eventRecord, h0]

lemma runTrace_partition (cfg : Config) (evs : List PipeEv) :
    ∀ s : CoordState,
      ((runTrace cfg s evs).2).flatten ++ (runTrace cfg s evs).1.lineQueue
        = s.lineQueue ++ arrivals cfg evs := by
  induction evs with
  | nil => intro s; simp [runTrace, arrivals]
  | cons e evs ih =>
    intro s
    simp only [runTrace, List.flatten_append, List.append_assoc]
    rw [ih (step cfg s e).1, ← List.append_assoc, step_partition cfg s e,
      List.append_assoc, ← arrivals_cons]

lemma step_batches_nonempty (cfg : Config) (s : CoordState) (e : PipeEv) :
    ∀ b ∈ (step cfg s e).2, b ≠ [] := by
  cases e with
  | line src tag c =>
    by_cases hc : c = "" <;> simp [step, hc]
  | run =>
    by_cases hg : (s.scheduled && s.inFlight == 0) = true
    · by_cases hq : s.lineQueue.isEmpty
      · simp [step, hg, hq]
      · simp [step, hg, hq]
        simpa [List.isEmpty_iff] using hq
    · simp [step, hg]
  | complete =>
    by_cases h0 : (s.inFlight == 0) = true <;> simp [step, h0]

lemma runTrace_batches_nonempty (cfg : Config) (evs : List PipeEv) :
    ∀ s : CoordState, ∀ b ∈ (runTrace cfg s evs).2, b ≠ [] := by
  induction evs with
  | nil => intro s b hb; simp [runTrace] at hb
  | cons e evs ih =>
    intro s b hb
    simp only [runTrace, List.mem_append] at hb
    cases hb with
    | inl h => exact step_batches_nonempty cfg s e b h
    | inr h => exact ih (step cfg s e).1 b h

lemma step_inFlight_le (cfg : Config) (s : CoordState) (e : PipeEv)
    (h : s.inFlight ≤ 1) : (step cfg s e).1.inFlight ≤ 1 := by
  cases e with
  | line src tag c =>
    by_cases hc : c = "" <;> simp [step, hc, h]
  | run =>
    by_cases hg : (s.scheduled && s.inFlight == 0) = true
    · by_cases hq : s.lineQueue.isEmpty
      · simp [step, hg, hq, h]
      · simp [step, hg, hq]
    · simp [step, hg, h]
  | complete =>
    by_cases h0 : (s.inFlight == 0) = true
    · simp [step, h0, h]
    · simp [step, h0]
      omega

lemma runTrace_inFlight_le (cfg : Config) (evs : List PipeEv) :
    ∀ s : CoordState, s.inFlight ≤ 1 → (runTrace cfg s evs).1.inFlight ≤ 1 := by
  induction evs with
  | nil => intro s h; simpa [runTrace] using h
  | cons e evs ih =>
    intro s h
    exact ih (step cfg s e).1 (step_inFlight_le cfg s e h)

lemma arrivals_mem (cfg : Config) (evs : List PipeEv) :
    ∀ r ∈ arrivals cfg evs,
      r.content ≠ "" ∧ r.user_id = cfg.userId ∧ r.dbIdKey = cfg.databaseIdKey
        ∧ r.dbIdVal = cfg.authId := by
  intro r hr
  simp only [arrivals, List.mem_filterMap] at hr
  obtain ⟨e, _he, hev⟩ := hr
  cases e with
  | line src tag c =>
    by_cases hc : c = ""
    · simp [eventRecord, hc] at hev
    · simp only [eventRecord, hc, if_false, Option.some_inj] at hev
      subst hev
      simp [mkEntry, hc]
  | run => simp [eventRecord] at hev
  | complete => simp [eventRecord] at hev

/- ===================== lemmas: retry loop ===================== -/

lemma attemptLoop_all_fail (sinkOk : Nat → Bool) (entries : List LogEntry) :
    ∀ fuel i, (∀ j, j < fuel → sinkOk (i + j) = false) →
      attemptLoop sinkOk entries i fuel
        = { inserts := List.replicate fuel entries,
            waitsMs := List.replicate fuel retryDelayMs,
            delivered := false } := by
  intro fuel
  induction fuel with
  | zero => intro i _; simp [attemptLoop]
  | succ n ih =>
    intro i h
    have h0 : sinkOk i = false := by simpa using h 0 (Nat.succ_pos n)
    have hrest : ∀ j, j < n → sinkOk (i + 1 + j) = false := by
      intro j hj
      have : i + 1 + j = i + (j + 1) := by omega
      rw [this]
      exact h (j + 1) (by omega)
    simp [attemptLoop, h0, ih (i + 1) hrest, List.replicate_succ]

lemma attemptLoop_k_fail_then_ok (sinkOk : Nat → Bool) (entries : List LogEntry) :
    ∀ k i fuel, k < fuel → (∀ j, j < k → sinkOk (i + j) = false) →
      sinkOk (i + k) = true →
      attemptLoop sinkOk entries i fuel
        = { inserts := List.replicate (k + 1) entries,
            waitsMs := List.replicate k retryDelayMs,
            delivered := true } := by
  intro k
  induction k with
  | zero =>
    intro i fuel hk _ hok
    obtain ⟨n, rfl⟩ : ∃ n, fuel = n + 1 := ⟨fuel - 1, by omega⟩
    have : sinkOk i = true := by simpa using hok
    simp [attemptLoop, this, List.replicate]
  | succ k ih =>
    intro i fuel hk hfail hok
    obtain ⟨n, rfl⟩ : ∃ n, fuel = n + 1 := ⟨fuel - 1, by omega⟩
    have h0 : sinkOk i = false := by simpa using hfail 0 (Nat.succ_pos k)
    have hfail' : ∀ j, j < k → sinkOk (i + 1 + j) = false := by
      intro j hj
      have : i + 1 + j = i + (j + 1) := by omega
      rw [this]
      exact hfail (j + 1) (by omega)
    have hok' : sinkOk (i + 1 + k) = true := by
      have : i + 1 + k = i + (k + 1) := by omega
      rw [this]
      exact hok
    simp [attemptLoop, h0, ih (i + 1) n (by omega) hfail' hok', List.replicate_succ]

lemma attemptLoop_inserts_le (sinkOk : Nat → Bool) (entries : List LogEntry) :
    ∀ fuel i, (attemptLoop sinkOk entries i fuel).inserts.length ≤ fuel := by
  intro fuel
  induction fuel with
  | zero => intro i; simp [attemptLoop]
  | succ n ih =>
    intro i
    by_cases hok : sinkOk i = true
    · simp [attemptLoop, hok]
    · simp only [Bool.not_eq_true] at hok
      have hrec := ih (i + 1)
      simp [attemptLoop, hok]
      omega

lemma attemptLoop_waits_fixed (sinkOk : Nat → Bool) (entries : List LogEntry) :
    ∀ fuel i, (attemptLoop sinkOk entries i fuel).waitsMs.all
      (fun w => w == retryDelayMs) = true := by
  intro fuel
  induction fuel with
  | zero => intro i; simp [attemptLoop]
  | succ n ih =>
    intro i
    by_cases hok : sinkOk i = true
    · simp [attemptLoop, hok]
    · simp only [Bool.not_eq_true] at hok
      simp [attemptLoop, hok, ih (i + 1)]

/- ===================== lemmas: arrivals generated by the wiring ===================== -/

lemma stringMk_ne_empty (l : List Char) (h : l ≠ []) : String.mk l ≠ "" := by
  intro hcontra
  apply h
  have : (String.mk l).data = ("" : String).data := by rw [hcontra]
  simpa using this

lemma arrivals_map_line (cfg : Config) (merged : List (String × List Char))
    (h : ∀ p ∈ merged, p.2 ≠ []) :
    arrivals cfg (merged.map (fun p => PipeEv.line p.1 "stdout" (String.mk p.2)))
      = merged.map (fun p => mkEntry cfg "stdout" (String.mk p.2)) := by
  induction merged with
  | nil => simp [arrivals]
  | cons p ps ih =>
    have hp : String.mk p.2 ≠ "" := stringMk_ne_empty p.2 (h p (List.mem_cons_self p ps))
    have hrest : ∀ q ∈ ps, q.2 ≠ [] := fun q hq => h q (List.mem_cons_of_mem _ hq)
    have hih := ih hrest
    simp only [arrivals, List.map_cons, List.filterMap_cons, eventRecord, hp, if_false] at hih ⊢
    simp [hih]

lemma arrivals_stream_stdout (cfg : Config) (initOf appOf : String → List Char) :
    ∀ evs : List PipeEv, evs.all (fromWiring initOf appOf) = true →
      ∀ r ∈ arrivals cfg evs, r.stream = "stdout" := by
  intro evs
  induction evs with
  | nil => intro _ r hr; simp [arrivals] at hr
  | cons e evs ih =>
    intro hw r hr
    simp only [List.all_cons, Bool.and_eq_true] at hw
    cases e with
    | line src tag c =>
      have htag : tag = "stdout" := by
        have h1 := hw.1
        simp [fromWiring, addTailStream] at h1
        exact h1
      simp only [arrivals, List.filterMap_cons] at hr
      by_cases hc : c = ""
      · simp only [eventRecord, hc, if_true, eq_self_iff_true] at hr
        exact ih hw.2 r hr
      · simp only [eventRecord, hc, if_false] at hr
        rcases (List.mem_cons).mp hr with hhead | htail
        · subst hhead; simp [mkEntry, htag]
        · exact ih hw.2 r htail
    | run =>
      simp only [arrivals, List.filterMap_cons, eventRecord] at hr
      exact ih hw.2 r hr
    | complete =>
      simp only [arrivals, List.filterMap_cons, eventRecord] at hr
      exact ih hw.2 r hr

/- ===================== claim theorems ===================== -/

/-- C1: for one nonempty snapshot batch, a sink failing exactly k < 10 times
then succeeding yields exactly k backoff waits and k+1 insert calls — every
one, the final successful one included, carrying the unchanged snapshot; a
sink failing on every attempt yields exactly numRetries = 10 insert calls of
the same unchanged batch and then the delivery-exhausted error, and the
completion step never re-enqueues the batch nor issues further inserts. -/
theorem c1_retry_bound (sinkA sinkB : Nat → Bool) (entries : List LogEntry)
    (k : Nat) (cfg : Config) (s : CoordState)
    (hk : k < numRetries) (hne : entries ≠ [])
    (hfa : (List.range k).all (fun i => !sinkA i) = true)
    (hsa : sinkA k = true)
    (hfb : (List.range numRetries).all (fun i => !sinkB i) = true) :
    flushBody sinkA entries
        = { inserts := List.replicate (k + 1) entries,
            waitsMs := List.replicate k retryDelayMs,
            delivered := true }
      ∧ flushBody sinkB entries
        = { inserts := List.replicate numRetries entries,
            waitsMs := List.replicate numRetries retryDelayMs,
            delivered := false }
      ∧ (step cfg s PipeEv.complete).1.lineQueue = s.lineQueue
      ∧ (step cfg s PipeEv.complete).2 = [] := by
  have hemp : entries.isEmpty = false := by
    simpa [List.isEmpty_iff] using hne
  simp only [List.all_eq_true, List.mem_range, Bool.not_eq_true'] at hfa hfb
  refine ⟨?_, ?_, ?_, ?_⟩
  · simp only [flushBody, hemp, Bool.false_eq_true, if_false]
    exact attemptLoop_k_fail_then_ok sinkA entries k 0 numRetries hk
      (fun j hj => by simpa using hfa j hj) (by simpa using hsa)
  · simp only [flushBody, hemp, Bool.false_eq_true, if_false]
    exact attemptLoop_all_fail sinkB entries numRetries 0
      (fun j hj => by simpa using hfb j hj)
  · by_cases h0 : (s.inFlight == 0) = true <;> simp [step, h0]
  · by_cases h0 : (s.inFlight == 0) = true <;> simp [step, h0]

/-- C1 witness: with a sink failing exactly twice then succeeding and a sink
always failing, on the one-entry batch entries0. -/
theorem c1_retry_bound_witness :
    (2 < numRetries) ∧ (entries0 ≠ [])
      ∧ ((List.range 2).all (fun i => !sinkA0 i) = true)
      ∧ (sinkA0 2 = true)
      ∧ ((List.range numRetries).all (fun i => !sinkB0 i) = true)
      ∧ (flushBody sinkA0 entries0
          = { inserts := List.replicate 3 entries0,
              waitsMs := List.replicate 2 retryDelayMs,
              delivered := true }
        ∧ flushBody sinkB0 entries0
          = { inserts := List.replicate numRetries entries0,
              waitsMs := List.replicate numRetries retryDelayMs,
              delivered := false }
        ∧ (step cfg0 initState PipeEv.complete).1.lineQueue = initState.lineQueue
        ∧ (step cfg0 initState PipeEv.complete).2 = []) :=
  ⟨by decide, by decide, by decide, by decide, by decide,
    c1_retry_bound sinkA0 sinkB0 entries0 2 cfg0 initState
      (by decide) (by decide) (by decide) (by decide) (by decide)⟩

/-- C2: over every event trace, at most one delivery is in flight at any
instant; the batches handed to the sink, concatenated in order, followed by
the records still queued, are exactly the enqueued records in arrival order
(each captured by exactly one flush, never split, never dropped); and no
batch handed to the sink is empty. -/
theorem c2_single_flight_capture (cfg : Config) (evs : List PipeEv) :
    (runTrace cfg initState evs).1.inFlight ≤ 1
      ∧ ((runTrace cfg initState evs).2).flatten
          ++ (runTrace cfg initState evs).1.lineQueue = arrivals cfg evs
      ∧ ((runTrace cfg initState evs).2).all (fun b => !b.isEmpty) = true := by
  refine ⟨runTrace_inFlight_le cfg evs initState (by simp [initState]), ?_, ?_⟩
  · simpa [initState] using runTrace_partition cfg evs initState
  · rw [List.all_eq_true]
    intro b hb
    have := runTrace_batches_nonempty cfg evs initState b hb
    simpa [List.isEmpty_iff] using this

/-- C3: a tail stream is opened at the file's size at discovery time, so it
delivers exactly the appended bytes, and the line events of the session are
those of the appended content alone — content present before the session
opened is never emitted. -/
theorem c3_no_replay (initialContent appended : List Char) :
    tailStartOffset initialContent = initialContent.length
      ∧ tailEmit initialContent appended = appended
      ∧ (addTailStream initialContent appended).stdoutLines
          = (fileStdoutLineChars appended).map (fun l => String.mk l) := by
  have hdrop : tailEmit initialContent appended = appended := by
    simp [tailEmit, tailStartOffset]
  exact ⟨rfl, hdrop, by simp [addTailStream, hdrop]⟩

/-- C4: writing each source's nonempty newline-free lines as
newline-terminated chunks into the shared stream and splitting it again
yields exactly the merged lines in write order; feeding them to the
coordinator delivers exactly those records in that order, so the
subsequence coming from any one source F is preserved in order in the
delivered output. -/
theorem c4_per_source_order (cfg : Config) (F : String)
    (merged : List (String × List Char))
    (hl : merged.all (fun p => decide (p.2 ≠ []) && decide ('\n' ∉ p.2)) = true) :
    split2Lines ((merged.map (fun p => lineChunk p.2)).flatten)
        = merged.map (fun p => p.2)
      ∧ ((runTrace cfg initState
            (merged.map (fun p => PipeEv.line p.1 "stdout" (String.mk p.2)))).2).flatten
          ++ (runTrace cfg initState
            (merged.map (fun p => PipeEv.line p.1 "stdout" (String.mk p.2)))).1.lineQueue
        = merged.map (fun p => mkEntry cfg "stdout" (String.mk p.2))
      ∧ List.Sublist
          ((merged.filter (fun p => p.1 == F)).map
            (fun p => mkEntry cfg "stdout" (String.mk p.2)))
          (((runTrace cfg initState
            (merged.map (fun p => PipeEv.line p.1 "stdout" (String.mk p.2)))).2).flatten
          ++ (runTrace cfg initState
            (merged.map (fun p => PipeEv.line p.1 "stdout" (String.mk p.2)))).1.lineQueue) := by
  simp only [List.all_eq_true, Bool.and_eq_true, decide_eq_true_eq] at hl
  have hne : ∀ p ∈ merged, p.2 ≠ [] := fun p hp => (hl p hp).1
  have hnl : ∀ p ∈ merged, '\n' ∉ p.2 := fun p hp => (hl p hp).2
  have hpart :
      ((runTrace cfg initState
          (merged.map (fun p => PipeEv.line p.1 "stdout" (String.mk p.2)))).2).flatten
        ++ (runTrace cfg initState
          (merged.map (fun p => PipeEv.line p.1 "stdout" (String.mk p.2)))).1.lineQueue
        = merged.map (fun p => mkEntry cfg "stdout" (String.mk p.2)) := by
    have := runTrace_partition cfg
      (merged.map (fun p => PipeEv.line p.1 "stdout" (String.mk p.2))) initState
    simpa [initState, arrivals_map_line cfg merged hne] using this
  refine ⟨?_, hpart, ?_⟩
  · have hmm : merged.map (fun p => lineChunk p.2)
        = (merged.map (fun p => p.2)).map lineChunk := by
      simp [List.map_map, Function.comp]
    rw [hmm]
    refine split2Lines_chunks (merged.map (fun p => p.2)) ?_
    intro l hlmem
    obtain ⟨p, hp, rfl⟩ := List.mem_map.mp hlmem
    exact hnl p hp
  · rw [hpart]
    exact (List.filter_sublist merged).map (fun p => mkEntry cfg "stdout" (String.mk p.2))

/-- C4 witness: three lines from two sources, source "a" contributing two. -/
theorem c4_per_source_order_witness :
    (merged0.all (fun p => decide (p.2 ≠ []) && decide ('\n' ∉ p.2)) = true)
      ∧ (split2Lines ((merged0.map (fun p => lineChunk p.2)).flatten)
            = merged0.map (fun p => p.2)
        ∧ ((runTrace cfg0 initState
              (merged0.map (fun p => PipeEv.line p.1 "stdout" (String.mk p.2)))).2).flatten
            ++ (runTrace cfg0 initState
              (merged0.map (fun p => PipeEv.line p.1 "stdout" (String.mk p.2)))).1.lineQueue
          = merged0.map (fun p => mkEntry cfg0 "stdout" (String.mk p.2))
        ∧ List.Sublist
            ((merged0.filter (fun p => p.1 == "a")).map
              (fun p => mkEntry cfg0 "stdout" (String.mk p.2)))
            (((runTrace cfg0 initState
              (merged0.map (fun p => PipeEv.line p.1 "stdout" (String.mk p.2)))).2).flatten
            ++ (runTrace cfg0 initState
              (merged0.map (fun p => PipeEv.line p.1 "stdout" (String.mk p.2)))).1.lineQueue)) :=
  ⟨by decide, c4_per_source_order cfg0 "a" merged0 (by decide)⟩

/-- C5: the per-file handler forwards no empty line; the coordinator creates
no record and changes nothing for an empty line; and every record in every
delivered batch or still queued has nonempty content. -/
theorem c5_no_empty_lines (bytes : List Char) (cfg : Config) (s : CoordState)
    (src tag : String) (evs : List PipeEv) :
    (fileStdoutLineChars bytes).all (fun l => !l.isEmpty) = true
      ∧ step cfg s (PipeEv.line src tag "") = (s, [])
      ∧ (((runTrace cfg initState evs).2).flatten
          ++ (runTrace cfg initState evs).1.lineQueue).all
            (fun r => r.content != "") = true := by
  refine ⟨?_, ?_, ?_⟩
  · rw [List.all_eq_true]
    intro l hl
    exact (List.mem_filter.mp hl).2
  · simp [step]
  · rw [List.all_eq_true]
    intro r hr
    rw [runTrace_partition cfg evs initState] at hr
    simp only [initState, List.nil_append] at hr
    simpa [bne_iff_ne] using (arrivals_mem cfg evs r hr).1

/-- C6: every record in a batch handed to the sink carries the user identity
in user_id, the caller-named foreign-key field set to the token's auth id,
and nonempty line content (the content and stream fields being the record's
own line and tag). -/
theorem c6_record_fields (cfg : Config) (evs : List PipeEv) :
    (((runTrace cfg initState evs).2).flatten).all
      (fun r => (r.user_id == cfg.userId) && (r.dbIdKey == cfg.databaseIdKey)
        && (r.dbIdVal == cfg.authId) && (r.content != "")) = true := by
  rw [List.all_eq_true]
  intro r hr
  have hmem : r ∈ arrivals cfg evs := by
    have h2 := List.mem_append_left (runTrace cfg initState evs).1.lineQueue hr
    rw [runTrace_partition cfg evs initState] at h2
    simpa [initState] using h2
  obtain ⟨hc, hu, hk, hv⟩ := arrivals_mem cfg evs r hmem
  simp [hu, hk, hv, bne_iff_ne, hc]

/-- C7: the claim says a `-` source spec makes stdin lines flow into the
shared pipeline, but in the code the `-` branch only assigns process.stdin
to a local variable that is never piped anywhere: the spec `-` contributes
no piped source at all, so its lines can never reach the sink. -/
theorem c7_stdin_never_piped :
    setupSource id "-" = SourceAction.stdinAssignedUnused
      ∧ pipedSourcePaths id ["-"] = []
      ∧ pipedSourcePaths id ["-", "a.log"] = ["a.log"] := by
  decide

/-- C8 counterexample: neither a backoff option nor a max-retries option is
among the CLI options the program recognizes — the two values are not
configuration options. -/
theorem c8_not_cli_options :
    "backoffMs" ∉ recognizedOptions ∧ "maxRetries" ∉ recognizedOptions := by
  decide

/-- C8 (amended): the backoff delay and the retry count are fixed constants,
1000 ms and 10 attempts: the flush body never makes more than numRetries
insert calls and every backoff wait lasts retryDelayMs, and neither value is
a recognized configuration option. -/
theorem c8_fixed_retry_constants (sinkOk : Nat → Bool) (entries : List LogEntry) :
    numRetries = 10 ∧ retryDelayMs = 1000
      ∧ (flushBody sinkOk entries).inserts.length ≤ numRetries
      ∧ (flushBody sinkOk entries).waitsMs.all (fun w => w == retryDelayMs) = true
      ∧ "backoffMs" ∉ recognizedOptions ∧ "maxRetries" ∉ recognizedOptions := by
  refine ⟨rfl, rfl, ?_, ?_, by decide, by decide⟩
  · by_cases hemp : entries.isEmpty = true
    · simp [flushBody, hemp]
    · simp only [flushBody, hemp, if_false]
      exact attemptLoop_inserts_le sinkOk entries numRetries 0
  · by_cases hemp : entries.isEmpty = true
    · simp [flushBody, hemp]
    · simp only [flushBody, hemp, if_false]
      exact attemptLoop_waits_fixed sinkOk entries numRetries 0

/-- C9 counterexample: a nonempty token whose payload has a recoverable
identity and *contains* the caller-named auth-id claim, but with an empty
value: resolution still fails, so failure is not exactly the three
conditions the claim lists. -/
theorem c9_present_empty_claim_fails :
    okValue (resolveCredentials decodeEx "tok" "agent_id") = none
      ∧ "tok" ≠ ""
      ∧ jsTruthy (extractUserId (decodeEx "tok")) = true
      ∧ lookupClaim ((decodeEx "tok").getD []) "agent_id" ≠ none := by
  decide

/-- C9 (amended): resolution succeeds exactly when the token is nonempty,
a user identity is recoverable and truthy (userId, falling back to sub),
and the caller-named auth-id claim is present with a truthy (nonempty)
value; on success it returns that identity, the full decoded claim set, and
the auth id. -/
theorem c9_resolution_characterization (decode : String → Option Claims)
    (token authIdKey : String) :
    okValue (resolveCredentials decode token authIdKey)
      = if token ≠ "" ∧ jsTruthy (extractUserId (decode token)) = true
            ∧ jsTruthy ((decode token).bind (fun p => lookupClaim p authIdKey)) = true
        then some { userId := (extractUserId (decode token)).getD "",
                    payload := (decode token).getD [],
                    authId := ((decode token).bind (fun p => lookupClaim p authIdKey)).getD "" }
        else none := by
  by_cases ht : token = ""
  · simp [resolveCredentials, getCredentialsFromToken, okValue, ht]
  · cases hdec : decode token with
    | none =>
      simp [resolveCredentials, getCredentialsFromToken, okValue, ht, hdec,
        extractUserId, jsTruthy]
    | some p =>
      cases huid : extractUserId (some p) with
      | none =>
        simp [resolveCredentials, getCredentialsFromToken, okValue, ht, hdec,
          huid, jsTruthy]
      | some uid =>
        by_cases huid0 : uid = ""
        · simp [resolveCredentials, getCredentialsFromToken, okValue, ht, hdec,
            huid, huid0, jsTruthy]
        · cases haid : lookupClaim p authIdKey with
          | none =>
            simp [resolveCredentials, getCredentialsFromToken, okValue, ht, hdec,
              huid, huid0, haid, jsTruthy]
          | some aid =>
            by_cases haid0 : aid = ""
            · simp [resolveCredentials, getCredentialsFromToken, okValue, ht, hdec,
                huid, huid0, haid, haid0, jsTruthy]
            · simp [resolveCredentials, getCredentialsFromToken, okValue, ht, hdec,
                huid, huid0, haid, haid0, jsTruthy]

/-- C10: when every line event reaching the coordinator comes through main's
wiring — the stdout path, or the stderr path carrying a line some per-file
stderrStream emitted (and addTailStream's stderrStream emits nothing) —
every delivered or queued record has stream tag "stdout": the stderr
processing path never produces a record. -/
theorem c10_stdout_only (cfg : Config) (evs : List PipeEv)
    (initOf appOf : String → List Char)
    (hw : evs.all (fromWiring initOf appOf) = true) :
    (((runTrace cfg initState evs).2).flatten
        ++ (runTrace cfg initState evs).1.lineQueue).all
      (fun r => r.stream == "stdout") = true := by
  rw [List.all_eq_true]
  intro r hr
  rw [runTrace_partition cfg evs initState] at hr
  simp only [initState, List.nil_append] at hr
  have := arrivals_stream_stdout cfg initOf appOf evs hw r hr
  simp [this]

/-- C10 witness: a concrete stdout-path trace with one line and one flush. -/
theorem c10_stdout_only_witness :
    (evs0.all (fromWiring (fun _ => []) (fun _ => [])) = true)
      ∧ (((runTrace cfg0 initState evs0).2).flatten
          ++ (runTrace cfg0 initState evs0).1.lineQueue).all
        (fun r => r.stream == "stdout") = true :=
  ⟨by decide, c10_stdout_only cfg0 evs0 (fun _ => []) (fun _ => []) (by decide)⟩
